import Mathlib

/-!
# Shallow embedding of the OmniXtend host-side protocol engine (omnixtend-rs)

Definitions are translated from the Rust sources under
`src/host_software/omnixtend-rs/src/`:

* `tilelink_messages.rs` — channel/permission enums and the 64-bit TileLink
  flit-header codec,
* `credits.rs` — the five per-channel credit pools,
* `sequence_number.rs` — the 22-bit modular sequence counter,
* `channels.rs` — the inbound payload walker (`Channel::process_messages`),
* `connection.rs` — the per-peer connection: receive path, close-precondition
  check, frame assembly (`put_messages` / `send_packet`).

Machine integers (`usize`, `u64`, `u32`, `u8`) are modelled as `Nat` with
explicit `% 2^w` at the points where the Rust code converts or can overflow.
Rust panics (slice out of bounds, `unwrap`/`expect`, arithmetic overflow,
unreachable `panic!` arms) are modelled as `none` of an `Option` result.
Loops whose bound is data-dependent but not structurally decreasing
(`Channel::process_messages`, whose cursor does not always advance) take an
explicit fuel argument; running out of fuel is a distinguished outcome.
-/

set_option maxRecDepth 10000

/-! ## tilelink_messages.rs -/

/-- Model of `OmnixtendChannel` (tilelink_messages.rs): discriminants
INVALID=0, A=1, B=2, C=3, D=4, E=5. -/
inductive OmnixtendChannel where
  | INVALID
  | A
  | B
  | C
  | D
  | E
deriving DecidableEq

/-- The numeric discriminant, as in `impl From<OmnixtendChannel> for u64`
and `chan as usize` / `chan as u64`. -/
def OmnixtendChannel.toU64 : OmnixtendChannel → Nat
  | .INVALID => 0
  | .A => 1
  | .B => 2
  | .C => 3
  | .D => 4
  | .E => 5

/-- Model of `impl From<u8> for OmnixtendChannel`: 0..5 map to the variants, every
other value falls through to INVALID. -/
def OmnixtendChannel.ofU8 (m : Nat) : OmnixtendChannel :=
  if m = 0 then .INVALID
  else if m = 1 then .A
  else if m = 2 then .B
  else if m = 3 then .C
  else if m = 4 then .D
  else if m = 5 then .E
  else .INVALID

/-- Model of `impl From<u64> for OmnixtendChannel`: 0..5 map to the variants; any
other value panics (`panic!("Unknown channel {}", m)`), modelled as `none`. -/
def OmnixtendChannel.ofU64 (m : Nat) : Option OmnixtendChannel :=
  if m = 0 then some .INVALID
  else if m = 1 then some .A
  else if m = 2 then some .B
  else if m = 3 then some .C
  else if m = 4 then some .D
  else if m = 5 then some .E
  else none

/-- Model of `OmnixtendPermissionChangeCap` (tilelink_messages.rs): ToT=0, ToB=1, ToN=2. -/
inductive OmnixtendPermissionChangeCap where
  | ToT
  | ToB
  | ToN
deriving DecidableEq

/-- Model of `OmnixtendPermissionChangeGrow` (tilelink_messages.rs): NtoB=0, NtoT=1, BtoT=2. -/
inductive OmnixtendPermissionChangeGrow where
  | NtoB
  | NtoT
  | BtoT
deriving DecidableEq

/-- Numeric value of a grow transition (`as u8`). -/
def OmnixtendPermissionChangeGrow.toU8 : OmnixtendPermissionChangeGrow → Nat
  | .NtoB => 0
  | .NtoT => 1
  | .BtoT => 2

/-- Model of `get_permission_change_grow` (tilelink_messages.rs lines 117-130):
N→B and N→T are recognised, everything else falls through to B→T. -/
def get_permission_change_grow (cur request : OmnixtendPermissionChangeCap) :
    OmnixtendPermissionChangeGrow :=
  if cur = .ToN ∧ request = .ToB then .NtoB
  else if cur = .ToN ∧ request = .ToT then .NtoT
  else .BtoT

/-- Model of `ChanABCDTilelinkMessage` (tilelink_messages.rs): the 64-bit flit header
for channels A-D.  The `u8`/`u32` fields are `Nat`s; the codec masks them to
their wire widths. -/
structure ChanABCDTilelinkMessage where
  chan : OmnixtendChannel
  opcode : Nat
  param : Nat
  size : Nat
  domain : Nat
  err : Nat
  source : Nat
deriving DecidableEq

/-- Model of `escape_bits(v, b) = v & ((1 << b) - 1)`. -/
def escape_bits (v b : Nat) : Nat := v &&& ((1 <<< b) - 1)

/-- Model of `escape_bits_shift(v, b, s) = (v & ((1 << b) - 1)) << s`. -/
def escape_bits_shift (v b s : Nat) : Nat := (v &&& ((1 <<< b) - 1)) <<< s

/-- Model of `extract_bits_shift(v, b, s) = (v >> s) & ((1 << b) - 1)`. -/
def extract_bits_shift (v b s : Nat) : Nat := (v >>> s) &&& ((1 <<< b) - 1)

/-- Model of `impl From<ChanABCDTilelinkMessage> for u64`: OR the masked, shifted
fields together, exactly in the source's order. -/
def ChanABCDTilelinkMessage.toU64 (m : ChanABCDTilelinkMessage) : Nat :=
  let v0 : Nat := 0
  let v1 := v0 ||| escape_bits_shift m.chan.toU64 3 60
  let v2 := v1 ||| escape_bits_shift m.opcode 3 57
  let v3 := v2 ||| escape_bits_shift m.param 4 52
  let v4 := v3 ||| escape_bits_shift m.size 4 48
  let v5 := v4 ||| escape_bits_shift m.domain 8 40
  let v6 := v5 ||| escape_bits_shift m.err 2 38
  v6 ||| escape_bits m.source 26

/-- Model of `impl From<u64> for ChanABCDTilelinkMessage`.  The channel conversion
uses `From<u64>`, which panics on 6 and 7 (`none` here). -/
def ChanABCDTilelinkMessage.ofU64 (m : Nat) : Option ChanABCDTilelinkMessage :=
  match OmnixtendChannel.ofU64 (extract_bits_shift m 3 60) with
  | none => none
  | some ch =>
    some { chan := ch
           opcode := extract_bits_shift m 3 57
           param := extract_bits_shift m 4 52
           size := extract_bits_shift m 4 48
           domain := extract_bits_shift m 8 40
           err := extract_bits_shift m 2 38
           source := extract_bits_shift m 26 0 }

/-- Model of `ChanETilelinkMessage` (tilelink_messages.rs): channel E flit header. -/
structure ChanETilelinkMessage where
  chan : OmnixtendChannel
  sink : Nat
deriving DecidableEq

/-- Model of `impl From<ChanETilelinkMessage> for u64`. -/
def ChanETilelinkMessage.toU64 (m : ChanETilelinkMessage) : Nat :=
  let v0 : Nat := 0
  let v1 := v0 ||| escape_bits_shift m.chan.toU64 3 60
  v1 ||| escape_bits m.sink 26

/-- Model of `impl From<u64> for ChanETilelinkMessage`. -/
def ChanETilelinkMessage.ofU64 (m : Nat) : Option ChanETilelinkMessage :=
  match OmnixtendChannel.ofU64 (extract_bits_shift m 3 60) with
  | none => none
  | some ch => some { chan := ch, sink := extract_bits_shift m 26 0 }

/-! ## credits.rs

The five pools (`credits: [Mutex<usize>; 5]`) are a `List Nat` of length 5;
`usize` is 64-bit and never overflows here, so pools are plain `Nat`s. -/

/-- Model of `Credits::new`. -/
def credits_new (n : Nat) : List Nat := [n, n, n, n, n]

/-- Model of `Credits::add`: no-op on INVALID, otherwise add to pool `chan - 1`. -/
def credits_add (cs : List Nat) (chan : OmnixtendChannel) (n : Nat) : List Nat :=
  if chan ≠ .INVALID then
    cs.set (chan.toU64 - 1) (cs.getD (chan.toU64 - 1) 0 + n)
  else cs

/-- Model of `Credits::take`: deduct iff the pool holds at least `amount`. -/
def credits_take (cs : List Nat) (chan : OmnixtendChannel) (amount : Nat) :
    Bool × List Nat :=
  if chan ≠ .INVALID then
    let c := cs.getD (chan.toU64 - 1) 0
    if amount ≤ c then (true, cs.set (chan.toU64 - 1) (c - amount))
    else (false, cs)
  else (false, cs)

/-- Model of `Credits::any`. -/
def credits_any (cs : List Nat) : Bool := cs.any (fun x => x ≠ 0)

/-- Model of `u32::leading_zeros` on a value already reduced mod 2^32:
32 for 0, otherwise 31 - ⌊log₂ y⌋. -/
def leading_zeros_u32 (y : Nat) : Nat :=
  if y = 0 then 32 else 31 - Nat.log2 y

/-- Model of `Credits::get_highest` (credits.rs lines 69-86).  The scan
`for (i, v) in credits.iter().enumerate() { if *credit > highest.1 ... }`
is the fold below.  `v as u32` truncates the pool value to 32 bits; when the
truncation is 0 while the pool is non-zero, `31 - leading_zeros` underflows
(a `u32` overflow panic), modelled as `none`.  Otherwise `2^m` with
`m = 31 - leading_zeros` is deducted from the winning pool. -/
def credits_get_highest (cs : List Nat) : Option ((Nat × Nat) × List Nat) :=
  let h := cs.enum.foldl (fun acc iv => if iv.2 > acc.2 then iv else acc) (0, 0)
  if h.2 = 0 then some ((0, 0), cs)
  else
    let y := h.2 % 4294967296
    if y = 0 then none
    else
      let m := 31 - leading_zeros_u32 y
      some ((h.1 + 1, m), cs.set h.1 (cs.getD h.1 0 - (1 <<< m)))

/-! ## sequence_number.rs

A `SequenceNumber` holds a `Modulo` with modulus 2^22; its remainder is
always in `[0, 2^22)`, so the state is a `Nat` below `seq_modulus`. -/

/-- Model of `SequenceNumber::modulus() = 1 << 22`. -/
def seq_modulus : Nat := 4194304

/-- Model of `SequenceNumber::max() = (1 << 22) - 1`, the uninitialized sentinel. -/
def seq_max : Nat := 4194303

/-- Model of `SequenceNumber::set` / `new`: store `v mod 2^22`. -/
def seq_set (v : Nat) : Nat := v % seq_modulus

/-- Model of `SequenceNumber::incr`. -/
def seq_incr (v : Nat) : Nat := (v + 1) % seq_modulus

/-- Modular difference `(a - b) mod 2^22` for `a < 2^22`. -/
def seq_diff (a b : Nat) : Nat := (a + seq_modulus - b % seq_modulus) % seq_modulus

/-- Model of `SequenceNumber::cmp(v)`: `(self - v) mod 2^22 < 1 << 21`. -/
def seq_cmp (self v : Nat) : Bool := seq_diff self v < 2097152

/-! ## channels.rs

`Channel::process_messages` walks the payload; the handlers for channels A,
C and E panic, channel D panics on unknown opcodes, and channel B leaves the
cursor untouched for opcodes other than 6/7.  Panics are `none`; the walk
itself takes fuel, with `spin` marking fuel exhaustion (which, because the
cursor can stall, corresponds to the Rust loop never terminating). -/

/-- Model of `u64::from_be_bytes(payload[pos..pos + 8])` on a byte list. -/
def u64_from_be_at (payload : List Nat) (pos : Nat) : Nat :=
  ((payload.drop pos).take 8).foldl (fun acc b => acc * 256 + b) 0

deriving instance DecidableEq for Except

/-- A queued probe: `(ChanABCDTilelinkMessage, addr)` (`cache::Probe`). -/
abbrev Probe := ChanABCDTilelinkMessage × Nat

/-- Model of `operations::Error` (operations.rs lines 32-44). -/
inductive OperationsError where
  | NotPowTwo (size : Nat)
  | UnalignedAccess
  | ConnectionClosed
deriving DecidableEq

/-- A channel-D response handed to the dispatcher:
`(source, sink, operations::Result<Vec<u8>>)`. -/
abbrev ChanDResponse := Nat × Nat × Except OperationsError (List Nat)

/-- Model of `Channel::handle_chan_b` (channels.rs lines 35-53): opcodes 6/7 skip the
header, read the 8-byte address (slice panic if short: `none`), and yield a
probe plus 2 channel-B credits; any other opcode yields nothing and leaves
`pos` unchanged. -/
def handle_chan_b (msg : ChanABCDTilelinkMessage) (payload : List Nat)
    (pos : Nat) : Option (Option Probe × Option (OmnixtendChannel × Nat) × Nat) :=
  if msg.opcode = 6 ∨ msg.opcode = 7 then
    let pos1 := pos + 8
    if pos1 + 8 ≤ payload.length then
      some (some (msg, u64_from_be_at payload pos1), some (msg.chan, 2), pos1 + 8)
    else none
  else some (none, none, pos)

/-- Model of `Channel::handle_read` (channels.rs lines 63-73): reads `1 << size`
bytes at `pos` (slice panic if short: `none`); the flit count is at least 1. -/
def handle_read (msg : ChanABCDTilelinkMessage) (payload : List Nat)
    (pos : Nat) : Option (Nat × List Nat) :=
  let read_bytes := 1 <<< msg.size
  let read_flits := max (read_bytes / 8) 1
  if pos + read_bytes ≤ payload.length then
    some (read_flits, (payload.drop pos).take read_bytes)
  else none

/-- Model of `Channel::handle_chan_d` (channels.rs lines 75-160).  `denied` is bit 1
of the 2-bit `err` field.  Opcodes 0/1/4/5 turn `denied` into
`UnalignedAccess`; opcode 6 (ReleaseAck) always answers `Ok(Vec::new())`;
any other opcode panics (`none`). -/
def handle_chan_d (msg : ChanABCDTilelinkMessage) (payload : List Nat)
    (pos : Nat) :
    Option (Option ChanDResponse × Option (OmnixtendChannel × Nat) × Nat) :=
  let denied := (msg.err >>> 1) &&& 1 = 1
  if msg.opcode = 0 then
    let v : Except OperationsError (List Nat) :=
      if denied then .error .UnalignedAccess else .ok []
    some (some (msg.source, 0, v), some (msg.chan, 1), pos + 8)
  else if msg.opcode = 1 then
    let pos1 := pos + 8
    match handle_read msg payload pos1 with
    | none => none
    | some (read_flits, d) =>
      let v : Except OperationsError (List Nat) :=
        if denied then .error .UnalignedAccess else .ok d
      some (some (msg.source, 0, v), some (msg.chan, 1 + read_flits),
            pos1 + read_flits * 8)
  else if msg.opcode = 4 then
    let v : Except OperationsError (List Nat) :=
      if denied then .error .UnalignedAccess else .ok []
    let pos1 := pos + 8
    if pos1 + 8 ≤ payload.length then
      let sink := u64_from_be_at payload pos1
      some (some (msg.source, sink &&& ((1 <<< 26) - 1), v), some (msg.chan, 2),
            pos1 + 8)
    else none
  else if msg.opcode = 5 then
    let pos1 := pos + 8
    if pos1 + 8 ≤ payload.length then
      let sink := u64_from_be_at payload pos1
      let pos2 := pos1 + 8
      match handle_read msg payload pos2 with
      | none => none
      | some (read_flits, d) =>
        let v : Except OperationsError (List Nat) :=
          if denied then .error .UnalignedAccess else .ok d
        some (some (msg.source, sink &&& ((1 <<< 26) - 1), v),
              some (msg.chan, 2 + read_flits), pos2 + read_flits * 8)
    else none
  else if msg.opcode = 6 then
    some (some (msg.source, 0, .ok []), some (msg.chan, 1), pos + 8)
  else none

/-- Outcome of `Channel::process_messages`. `err` is `Error::ShortPayload`;
`panicked` is any Rust panic; `spin` is fuel exhaustion (the Rust loop has
made that many iterations without finishing). -/
inductive PMResult where
  | done (credits : List (OmnixtendChannel × Nat)) (probes : List Probe)
      (responses : List ChanDResponse)
  | err (pl : Nat)
  | panicked
  | spin
deriving DecidableEq

/-- The `while pos < payload.len() - 8` loop of `Channel::process_messages`
(channels.rs lines 186-215), with fuel.  Channels A, C, E panic
(`handle_chan_a` / `_c` / `_e`); INVALID advances by one flit; B and D
dispatch to their handlers. -/
def process_messages_loop (fuel : Nat) (payload : List Nat) (pos : Nat)
    (credits : List (OmnixtendChannel × Nat)) (probes : List Probe)
    (responses : List ChanDResponse) : PMResult :=
  match fuel with
  | 0 => if pos < payload.length - 8 then .spin else .done credits probes responses
  | fuel + 1 =>
    if pos < payload.length - 8 then
      match ChanABCDTilelinkMessage.ofU64 (u64_from_be_at payload pos) with
      | none => .panicked
      | some msg =>
        match msg.chan with
        | .A => .panicked
        | .C => .panicked
        | .E => .panicked
        | .INVALID => process_messages_loop fuel payload (pos + 8) credits probes responses
        | .B =>
          match handle_chan_b msg payload pos with
          | none => .panicked
          | some (probe_in, c, pos') =>
            let probes' := match probe_in with
              | some p => probes ++ [p]
              | none => probes
            let credits' := match c with
              | some cr => credits ++ [cr]
              | none => credits
            process_messages_loop fuel payload pos' credits' probes' responses
        | .D =>
          match handle_chan_d msg payload pos with
          | none => .panicked
          | some (response, c, pos') =>
            let responses' := match response with
              | some r => responses ++ [r]
              | none => responses
            let credits' := match c with
              | some cr => credits ++ [cr]
              | none => credits
            process_messages_loop fuel payload pos' credits' probes responses'
    else .done credits probes responses

/-- Model of `Channel::process_messages` (channels.rs lines 170-217): reject payloads
shorter than 8 bytes, then walk the flits. -/
def process_messages (fuel : Nat) (payload : List Nat) : PMResult :=
  if payload.length < 8 then .err payload.length
  else process_messages_loop fuel payload 0 [] [] []

/-- Did `process_messages` deliver a value (`Ok` or `Err`) to its caller —
as opposed to panicking or spinning forever? -/
def returns_value : PMResult → Bool
  | .done _ _ _ => true
  | .err _ => true
  | .panicked => false
  | .spin => false

/-- A flit header the payload walker survives: it decodes (channel bits at
most 5) to channel B, channel INVALID, or channel D with a handled opcode. -/
def good_header (w : Nat) : Bool :=
  match ChanABCDTilelinkMessage.ofU64 w with
  | none => false
  | some msg =>
    match msg.chan with
    | .B => true
    | .INVALID => true
    | .D => (msg.opcode == 0) || (msg.opcode == 1) || (msg.opcode == 4)
        || (msg.opcode == 5) || (msg.opcode == 6)
    | _ => false

/-- The flit-header words `process_messages_loop` reads, mirroring its
recursion (stopping where the walker panics or runs out of fuel). -/
def visited_headers (fuel : Nat) (payload : List Nat) (pos : Nat) : List Nat :=
  match fuel with
  | 0 => []
  | fuel + 1 =>
    if pos < payload.length - 8 then
      let w := u64_from_be_at payload pos
      w ::
        (match ChanABCDTilelinkMessage.ofU64 w with
        | none => []
        | some msg =>
          match msg.chan with
          | .A => []
          | .C => []
          | .E => []
          | .INVALID => visited_headers fuel payload (pos + 8)
          | .B =>
            match handle_chan_b msg payload pos with
            | none => []
            | some (_, _, pos') => visited_headers fuel payload pos'
          | .D =>
            match handle_chan_d msg payload pos with
            | none => []
            | some (_, _, pos') => visited_headers fuel payload pos')
    else []

/-- A 16-byte payload whose first flit header carries channel B with
opcode 0: `[0x20, 0, …]` decodes to chan=2 (B), opcode=0. -/
def payload_chan_b_op0 : List Nat :=
  [32, 0, 0, 0, 0, 0, 0, 0, 0, 0, 0, 0, 0, 0, 0, 0]

/-- A 16-byte payload whose first flit header carries channel A:
`[0x10, 0, …]` decodes to chan=1 (A). -/
def payload_chan_a : List Nat :=
  [16, 0, 0, 0, 0, 0, 0, 0, 0, 0, 0, 0, 0, 0, 0, 0]

/-! ## connection.rs

The `Connection` struct, its receive path (`process_packets`), the
close-precondition check, and the frame-assembly path
(`space_in_packet` / `put_messages` / `send_packet`).

Wall-clock fields (`Instant`s), logging, and the blocking back-off loops of
`close_connection` are outside the embedding; an incoming frame is carried
as its parsed header fields plus payload bytes (`pnet` field accessors).
The `while` loop of `remove_from_resend` increments `first_in_resend`
modulo 2^22 until it equals `they_acked`, popping one resend-buffer entry
per step; it therefore performs exactly `(they_acked - first_in_resend)
mod 2^22` iterations, panicking (`none`) if the buffer runs dry. -/

/-- Model of `ConnectionState` (connection.rs lines 73-82). -/
inductive ConnectionState where
  | Idle
  | Active
  | Enabled
  | Opened
  | ClosedByHost
  | ClosedByHostIndicated
  | ClosedByClient
deriving DecidableEq

/-- Model of `connection::Error` (connection.rs lines 31-69); payload-free where the
payload does not matter to any claim. -/
inductive ConnectionError where
  | CompatModeClose
  | CacheError
  | ParseMacError (mac : Nat)
  | ParseEthType (t : Nat)
  | OutOfOrder (got expected : Nat)
  | SendOnIdle
  | PacketNotSent
  | NoResendData
  | ResendInProgress
  | NotEthernetPacket
  | ConnectionCloseTimeout
deriving DecidableEq

/-- The mutable state of a `Connection` (connection.rs lines 122-146).
Sequence-number fields hold the `Modulo` remainder, a `Nat` below 2^22;
MAC addresses are 48-bit `Nat`s. -/
structure Connection where
  next_rx_seq : Nat
  last_rx_seq : Nat
  next_tx_seq : Nat
  they_acked : Nat
  we_acked : Nat
  first_in_resend : Nat
  naks : Nat
  last_ack_status : Bool
  send_outstanding : Bool
  resend_outstanding : Bool
  connection_state : ConnectionState
  compat_mode : Bool
  id : Nat
  my_mac : Nat
  other_mac : Nat
  credits_send : List Nat
  credits_receive : List Nat
  resend_buffer : List (List Nat)
  packet_data : Option (List Nat)
deriving DecidableEq

/-- Model of `Connection::new` (state fields only). -/
def connection_new (compat_mode : Bool) (id my_mac other_mac : Nat) : Connection :=
  { next_rx_seq := 0
    last_rx_seq := seq_max
    next_tx_seq := 0
    they_acked := seq_max
    we_acked := seq_max
    first_in_resend := seq_max
    naks := 0
    last_ack_status := false
    send_outstanding := true
    resend_outstanding := false
    connection_state := .Idle
    compat_mode := compat_mode
    id := id
    my_mac := my_mac
    other_mac := other_mac
    credits_send := credits_new (if compat_mode then 0 else 128)
    credits_receive := credits_new 268435456
    resend_buffer := []
    packet_data := none }

/-- An incoming Ethernet + OmniXtend frame, as the `pnet` accessors expose
it: destination/source MAC, EtherType, then the OmniXtend header fields
(3-bit vc, 4-bit message type, 22-bit sequence and sequence-ack, 1-bit ack,
3-bit credit channel, 5-bit credit amount) and the payload bytes.
The model presupposes a frame long enough for both headers, as
`process_packets` unwraps the header parses. -/
structure EthFrame where
  dst_mac : Nat
  src_mac : Nat
  ethertype : Nat
  vc : Nat
  message_type : Nat
  seq : Nat
  seq_ack : Nat
  ack : Nat
  chan : Nat
  credit : Nat
  payload : List Nat
deriving DecidableEq

/-- Model of `OmnixtendMessageType` numeric values (tilelink_messages.rs lines
153-159): NORMAL=0, AckOnly=1, OpenConnection=2, CloseConnection=3. -/
def message_type_ack_only : Nat := 1

/-- Model of `Connection::remove_from_resend` (connection.rs lines 534-548): pop one
buffered frame per `first_in_resend` increment until it reaches
`they_acked`; popping an empty buffer is the `expect` panic (`none`). -/
def remove_from_resend (s : Connection) : Option Connection :=
  let steps := seq_diff s.they_acked s.first_in_resend
  if steps ≤ s.resend_buffer.length then
    some { s with first_in_resend := seq_set s.they_acked
                  resend_buffer := s.resend_buffer.drop steps }
  else none

/-- Model of `Connection::indicate_nak` (connection.rs lines 550-557). -/
def indicate_nak (s : Connection) : Connection :=
  { s with resend_outstanding := true }

/-- Model of `Connection::update_send_credits` (connection.rs lines 521-532):
`credits_send.add(OmnixtendChannel::from(chan as u8), 2^credit)`. -/
def update_send_credits (s : Connection) (f : EthFrame) : Connection :=
  { s with credits_send :=
      credits_add s.credits_send (OmnixtendChannel.ofU8 f.chan) (2 ^ f.credit) }

/-- Model of `Connection::set_connection_state_receive` (connection.rs lines
588-610).  `cstate` is loaded once at entry; the open/close chain compares
against that snapshot even after the Opened→Active store. -/
def set_connection_state_receive (s : Connection) (f : EthFrame) : Connection :=
  let cstate := s.connection_state
  if s.compat_mode then s
  else
    let s1 := if cstate = .Opened then { s with connection_state := .Active } else s
    let is_open_connection := f.message_type = 2
    let is_close_connection := f.message_type = 3
    if is_open_connection ∧ cstate = .Idle then
      { s1 with connection_state := .Active }
    else if is_close_connection ∧ cstate = .ClosedByHostIndicated then
      { s1 with connection_state := .Idle }
    else if is_close_connection then
      { s1 with connection_state := .ClosedByClient, send_outstanding := true }
    else s1

/-- Model of `Connection::process_replicated` (connection.rs lines 559-577):
non-AckOnly replays count a NAK, clear `last_ack_status`, raise
`send_outstanding` and error out as `OutOfOrder`; AckOnly replays are
ignored. -/
def process_replicated (s : Connection) (ack_only : Bool) (f : EthFrame) :
    Except ConnectionError (List Nat) × Connection :=
  if ¬ ack_only then
    (.error (.OutOfOrder f.seq s.next_rx_seq),
     { s with naks := s.naks + 1
              last_ack_status := false
              send_outstanding := true })
  else (.ok [], s)

/-- Model of `Connection::process_out_of_sequence` (connection.rs lines 640-647). -/
def process_out_of_sequence (s : Connection) : Except ConnectionError (List Nat) × Connection :=
  (.ok [], s)

/-- Model of `Connection::process_packets` (connection.rs lines 445-519): MAC and
EtherType filter, then the three-way sequence-number dispatch.  `none` is
the `expect` panic inside `remove_from_resend`. -/
def process_packets (s : Connection) (f : EthFrame) :
    Option (Except ConnectionError (List Nat) × Connection) :=
  if f.dst_mac ≠ s.my_mac then some (.error (.ParseMacError f.dst_mac), s)
  else if f.ethertype ≠ 43690 then some (.error (.ParseEthType f.ethertype), s)
  else
    let ack_only := f.message_type = message_type_ack_only
    if f.seq = s.next_rx_seq then
      let s1 := { s with last_rx_seq := seq_set f.seq
                         they_acked := seq_set f.seq_ack }
      match remove_from_resend s1 with
      | none => none
      | some s2 =>
        let s3 := if f.ack = 1 then s2 else indicate_nak s2
        if ¬ ack_only then
          let s4 := if 0 < f.chan then update_send_credits s3 f else s3
          let s5 := { s4 with last_ack_status := true
                              next_rx_seq := seq_incr s4.next_rx_seq }
          some (.ok f.payload, set_connection_state_receive s5 f)
        else some (.ok [], s3)
    else if ¬ seq_cmp s.next_rx_seq f.seq then some (process_replicated s ack_only f)
    else some (process_out_of_sequence s)

/-- The guard of `Connection::close_connection` (connection.rs lines
214-222): `true` iff the call fails with `Error::CompatModeClose`.  The
rest of `close_connection` only blocks on concurrent state or times out. -/
def close_connection_fails (s : Connection) : Bool :=
  s.compat_mode || s.connection_state == ConnectionState.Idle
    || (s.connection_state == ConnectionState.Opened && s.last_rx_seq == seq_max)
    || s.connection_state == ConnectionState.Enabled

/-! ### Frame assembly (send path) -/

/-- Model of `space_in_packet` (connection.rs lines 679-695), returning
`(fits, packet_len, mask_cntr, mask)` after the call: when the start-mask
counter is below 64 and the grown length stays below `ethernet_max`, the
length is grown, the bit at the old counter is OR-ed into the mask, and the
counter advances by the message's flit count. -/
def space_in_packet (packet_len : Nat) (p : List Nat) (mask_cntr : Nat)
    (ethernet_max : Nat) (mask : Nat) : Bool × Nat × Nat × Nat :=
  let packet_len_new := packet_len + p.length
  if mask_cntr < 64 ∧ packet_len_new < ethernet_max then
    (true, packet_len_new, mask_cntr + p.length / 8, mask ||| (1 <<< mask_cntr))
  else (false, packet_len, mask_cntr, mask)

/-- The `take_while(space_in_packet …)` pass of `put_messages`: returns the
taken prefix together with the final `(packet_len, mask_cntr, mask)`. -/
def put_messages_loop (ops : List (List Nat)) (packet_len mask_cntr mask : Nat) :
    List (List Nat) × Nat × Nat × Nat :=
  match ops with
  | [] => ([], packet_len, mask_cntr, mask)
  | p :: rest =>
    let r := space_in_packet packet_len p mask_cntr 9000 mask
    if r.1 then
      let t := put_messages_loop rest r.2.1 r.2.2.1 r.2.2.2
      (p :: t.1, t.2)
    else ([], packet_len, mask_cntr, mask)

/-- Model of `u64::to_be_bytes`. -/
def u64_to_be_bytes (n : Nat) : List Nat :=
  [n / 72057594037927936 % 256, n / 281474976710656 % 256,
   n / 1099511627776 % 256, n / 4294967296 % 256, n / 16777216 % 256,
   n / 65536 % 256, n / 256 % 256, n % 256]

/-- Model of `Connection::put_messages` (connection.rs lines 356-400): greedily move
pending messages into the frame, zero-pad to the 70-byte minimum (the
running `packet_len` already reserves 8 bytes for the trailer), and append
the big-endian start-of-message mask.  Returns the grown payload, the
remaining pending list (`ops.drain(0..put_in)`) and `some_data`. -/
def put_messages (payload : List Nat) (operations : Option (List (List Nat))) :
    List Nat × Option (List (List Nat)) × Bool :=
  let ethernet_min := 70
  match operations with
  | some ops =>
    let r := put_messages_loop ops (payload.length + 8) 0 0
    let payload1 := payload ++ r.1.flatten
    let packet_len := r.2.1
    let payload2 :=
      if packet_len < ethernet_min then
        payload1 ++ List.replicate (ethernet_min - packet_len) 0
      else payload1
    (payload2 ++ u64_to_be_bytes r.2.2.2, some (ops.drop r.1.length), !r.1.isEmpty)
  | none =>
    let packet_len := payload.length + 8
    let payload2 :=
      if packet_len < ethernet_min then
        payload ++ List.replicate (ethernet_min - packet_len) 0
      else payload
    (payload2 ++ u64_to_be_bytes 0, none, false)

/-- A 48-bit MAC as its 6 on-wire bytes. -/
def mac_bytes (m : Nat) : List Nat :=
  [m / 1099511627776 % 256, m / 4294967296 % 256, m / 16777216 % 256,
   m / 65536 % 256, m / 256 % 256, m % 256]

/-- Model of `Connection::create_eth_header` (connection.rs lines 348-354): the
14-byte Ethernet header the `pnet` setters leave in the buffer —
destination `other_mac`, source `my_mac`, EtherType 0xAAAA. -/
def create_eth_header_bytes (s : Connection) : List Nat :=
  mac_bytes s.other_mac ++ mac_bytes s.my_mac ++ [170, 170]

/-- The 8-byte OmniXtend header (omnixtend.rs): vc(3) | message_type(4) |
res1(3) | sequence_number(22) | sequence_number_ack(22) | ack(1) | res2(1) |
chan(3) | credit(5), big-endian.  This is the byte image the
`MutableOmnixtendPacket` field setters leave in the buffer. -/
def omnixtend_header_bytes (vc message_type seq seq_ack ack chan credit : Nat) :
    List Nat :=
  u64_to_be_bytes
    (vc % 8 * 2305843009213693952 + message_type % 16 * 144115188075855872
      + seq % 4194304 * 4294967296 + seq_ack % 4194304 * 1024
      + ack % 2 * 512 + chan % 8 * 32 + credit % 32)

/-- Model of `Connection::determine_connection_state` (connection.rs lines 312-332):
returns the possibly updated connection plus the message type the frame
carries (starting from NORMAL=0) — the function also returns the state
snapshot, which `send_packet` only logs. -/
def determine_connection_state (s : Connection) (message_type : Nat)
    (outstanding_requests : Bool) : Connection × Nat :=
  let cstate := s.connection_state
  if ¬ s.compat_mode then
    if cstate = .Enabled then
      ({ s with connection_state := .Opened }, 2)
    else if cstate = .ClosedByHost ∧ ¬ outstanding_requests then
      ({ s with connection_state := .ClosedByHostIndicated }, 3)
    else if cstate = .ClosedByClient ∧ ¬ outstanding_requests then
      ({ s with connection_state := .Idle }, 3)
    else (s, message_type)
  else (s, message_type)

/-- Model of `Connection::send_packet` (connection.rs lines 245-297).  Fails on an
idle connection or when the previous frame is still pending; assembles one
frame (22 zero bytes of header placeholders, `put_messages`, then the
Ethernet and OmniXtend headers are written in place over the first 22
bytes), advances `next_tx_seq`, advertises the highest receive-credit grant
(`none` on the `get_highest` truncation panic), stores the frame in
`packet_data`, sets `we_acked` and mirrors the frame into the resend
buffer.  The `Except.ok` payload is the assembled frame, alongside the
remaining pending-messages list. -/
def send_packet (s : Connection) (operations : Option (List (List Nat)))
    (outstanding_requests : Bool) :
    Option (Except ConnectionError (List Nat × Option (List (List Nat))) × Connection) :=
  if s.connection_state = .Idle then some (.error .SendOnIdle, s)
  else if s.packet_data.isSome then some (.error .PacketNotSent, s)
  else
    let s0 := { s with send_outstanding := false }
    let pm := put_messages (List.replicate 22 0) operations
    let seq_ack := s0.last_rx_seq
    let ack : Nat := if s0.last_ack_status then 1 else 0
    let r1 := determine_connection_state s0 0 outstanding_requests
    let s1 := r1.1
    let seq := s1.next_tx_seq
    let s2 := { s1 with next_tx_seq := seq_incr s1.next_tx_seq }
    match credits_get_highest s2.credits_receive with
    | none => none
    | some ((i, v), cs') =>
      let s3 := { s2 with credits_receive := cs' }
      let chan := if i ≠ 0 then i else 0
      let credit := if i ≠ 0 then v else 0
      let buf := create_eth_header_bytes s3
        ++ omnixtend_header_bytes 0 r1.2 seq seq_ack ack chan credit
        ++ pm.1.drop 22
      let s4 := { s3 with packet_data := some buf
                          we_acked := s3.last_rx_seq
                          resend_buffer := s3.resend_buffer ++ [buf] }
      some (.ok (buf, pm.2.1), s4)

/-- A fresh non-compat connection used as a concrete receive-path state. -/
def c2conn : Connection := connection_new false 0 0 0

/-- A non-AckOnly frame for `c2conn` carrying sequence number 1 while
`next_rx_seq` is 0 — an out-of-order frame that passes the MAC and
EtherType filter. -/
def c2frame : EthFrame :=
  { dst_mac := 0, src_mac := 0, ethertype := 43690, vc := 0,
    message_type := 0, seq := 1, seq_ack := 0, ack := 0, chan := 0,
    credit := 0, payload := [] }

/-- The start-of-message mask as the claim describes it: each appended
message OR-s exactly one bit into the mask, at the offset equal to the
cumulative flit count (`length / 8`) of the messages appended before it. -/
def mask_spec (msgs : List (List Nat)) (cntr mask : Nat) : Nat :=
  match msgs with
  | [] => mask
  | p :: rest => mask_spec rest (cntr + p.length / 8) (mask ||| (1 <<< cntr))

/-- An active connection with drained receive credits, used as a concrete
send-path state. -/
def c6conn : Connection :=
  { connection_new false 0 0 0 with connection_state := .Active
                                    credits_receive := credits_new 0 }

/-- The result of one `send_packet` on `c6conn` with an empty pending
list. -/
def c6result : Option (Except ConnectionError
    (List Nat × Option (List (List Nat))) × Connection) :=
  send_packet c6conn (some []) false

/-- The frame `c6result` assembles. -/
def c6buf : List Nat :=
  match c6result with
  | some (.ok (b, _), _) => b
  | _ => []

/-- The connection state after `c6result`. -/
def c6state : Connection :=
  match c6result with
  | some (_, st) => st
  | none => c6conn

/-! ## Helper lemmas -/

/-- OR-ing a value below `2^t` into a multiple of `2^t` is addition. -/
theorem lor_mul_pow (k a t : Nat) (h : a < 2 ^ t) :
    (k * 2 ^ t) ||| a = k * 2 ^ t + a := by
  apply Nat.eq_of_testBit_eq
  intro j
  rw [Nat.testBit_lor, Nat.mul_comm k (2 ^ t), Nat.testBit_mul_pow_two_add k h j,
    Nat.testBit_mul_pow_two]
  rcases Nat.lt_or_ge j t with hj | hj
  · simp [hj, Nat.not_le_of_lt hj]
  · have ha : a.testBit j = false :=
      Nat.testBit_lt_two_pow (lt_of_lt_of_le h (Nat.pow_le_pow_right (by omega) hj))
    simp [hj, Nat.not_lt_of_le hj, ha]

/-! ## C7 -/

/-- C7: `get_permission_change_grow(cur, request)` returns NtoB exactly for
(ToN, ToB), NtoT exactly for (ToN, ToT), and BtoT for every other pair,
including requests that do not grow the permission. -/
theorem get_permission_change_grow_cases (cur request : OmnixtendPermissionChangeCap) :
    (get_permission_change_grow cur request = .NtoB ↔ cur = .ToN ∧ request = .ToB) ∧
    (get_permission_change_grow cur request = .NtoT ↔ cur = .ToN ∧ request = .ToT) ∧
    (get_permission_change_grow cur request = .BtoT ↔
      ¬ (cur = .ToN ∧ (request = .ToB ∨ request = .ToT))) := by
  cases cur <;> cases request <;> simp [get_permission_change_grow]

/-! ## C3 -/

/-- C3 (counterexample): the claim — `close_connection` fails with
`CompatModeClose` iff compat mode, or the state is neither Active nor
Opened-with-activity — is false: with compat mode off and state
ClosedByHost (outside both), the guard does not fire. -/
theorem close_connection_fails_claim_false :
    ¬ (∀ s : Connection, close_connection_fails s = true ↔
        (s.compat_mode = true ∨
          ¬ (s.connection_state = .Active ∨
              (s.connection_state = .Opened ∧ s.last_rx_seq ≠ seq_max)))) := by
  intro h
  have h2 := h { connection_new false 0 0 0 with connection_state := .ClosedByHost }
  revert h2
  decide

/-- C3 (amended): `close_connection(timeout)` fails with `CompatModeClose`
iff compat mode is set, or the state is Idle or Enabled, or the state is
Opened with no received sequence number recorded (`last_rx_seq` still the
sentinel `2^22 - 1`).  The three ClosedBy* states pass the guard. -/
theorem close_connection_fails_iff (s : Connection) :
    close_connection_fails s = true ↔
      (s.compat_mode = true ∨ s.connection_state = .Idle ∨
        s.connection_state = .Enabled ∨
        (s.connection_state = .Opened ∧ s.last_rx_seq = seq_max)) := by
  simp only [close_connection_fails, Bool.or_eq_true, Bool.and_eq_true, beq_iff_eq]
  tauto

/-! ## C4 -/

/-- C4 (counterexample): the claim includes ReleaseAck (opcode 6) among the
channel-D opcodes whose denied responses surface as `UnalignedAccess`, but
`handle_chan_d` answers `Ok(Vec::new())` for ReleaseAck even with err bit 1
set. -/
theorem handle_chan_d_releaseack_ignores_err :
    (((2 : Nat) >>> 1) &&& 1 = 1) ∧
    handle_chan_d
        { chan := .D, opcode := 6, param := 0, size := 0, domain := 0,
          err := 2, source := 5 } [] 0
      = some (some (5, 0, .ok []), some (.D, 1), 8) := by
  constructor
  · decide
  · rfl

/-- C4 (amended): for channel-D flits with opcode 0 (AccessAck),
1 (AccessAckData), 4 (Grant) or 5 (GrantData), err bit 1 set forces the
response delivered toward the caller to be the `UnalignedAccess` error,
never successful data; ReleaseAck (opcode 6) ignores the err field. -/
theorem handle_chan_d_denied_error (msg : ChanABCDTilelinkMessage)
    (payload : List Nat) (pos src sink pos' : Nat)
    (res : Except OperationsError (List Nat))
    (c : Option (OmnixtendChannel × Nat))
    (hden : (msg.err >>> 1) &&& 1 = 1)
    (hop : msg.opcode = 0 ∨ msg.opcode = 1 ∨ msg.opcode = 4 ∨ msg.opcode = 5)
    (h : handle_chan_d msg payload pos = some (some (src, sink, res), c, pos')) :
    res = .error .UnalignedAccess := by
  unfold handle_chan_d at h
  rcases hop with h0 | h1 | h4 | h5
  · rw [h0] at h
    simp [hden] at h
    simp_all
  · rw [h1] at h
    rcases hr : handle_read msg payload (pos + 8) with _ | ⟨rf, d⟩ <;>
      simp [hden, hr] at h
    simp_all
  · rw [h4] at h
    by_cases hlen : pos + 8 + 8 ≤ payload.length <;> simp [hden, hlen] at h
    simp_all
  · rw [h5] at h
    by_cases hlen : pos + 8 + 8 ≤ payload.length
    · rcases hr : handle_read msg payload (pos + 8 + 8) with _ | ⟨rf, d⟩ <;>
        simp [hden, hlen, hr] at h
      simp_all
    · simp [hden, hlen] at h

/-- C4 witness: a denied AccessAck is delivered as `UnalignedAccess`. -/
theorem handle_chan_d_denied_error_witness :
    ((((2 : Nat) >>> 1) &&& 1 = 1) ∧
      ((0 : Nat) = 0 ∨ (0 : Nat) = 1 ∨ (0 : Nat) = 4 ∨ (0 : Nat) = 5) ∧
      handle_chan_d
          { chan := .D, opcode := 0, param := 0, size := 0, domain := 0,
            err := 2, source := 7 } [] 0
        = some (some (7, 0, .error .UnalignedAccess), some (.D, 1), 8)) ∧
    (Except.error .UnalignedAccess : Except OperationsError (List Nat))
      = .error .UnalignedAccess :=
  ⟨⟨by decide, Or.inl rfl, rfl⟩,
    handle_chan_d_denied_error
      { chan := .D, opcode := 0, param := 0, size := 0, domain := 0,
        err := 2, source := 7 } [] 0 7 0 8 _ _ (by decide) (Or.inl rfl) rfl⟩

/-! ## C1 -/

/-- The `enumerate`-fold of `Credits::get_highest`, characterised: the
result dominates the accumulator and every scanned value, and is either the
accumulator itself or a strict-improvement entry of the list. -/
theorem credits_fold_spec (l : List Nat) (n : Nat) (h : Nat × Nat) :
    ∀ r, r = (List.enumFrom n l).foldl
        (fun acc iv => if iv.2 > acc.2 then iv else acc) h →
      h.2 ≤ r.2 ∧ (∀ x ∈ l, x ≤ r.2) ∧
        (r = h ∨ ∃ j, j < l.length ∧ r.1 = n + j ∧ r.2 = l.getD j 0 ∧ h.2 < r.2) := by
  induction l generalizing n h with
  | nil =>
    intro r hr
    simp only [List.enumFrom, List.foldl_nil] at hr
    subst hr
    exact ⟨Nat.le_refl _, by simp, Or.inl rfl⟩
  | cons a t ih =>
    intro r hr
    rw [List.enumFrom_cons, List.foldl_cons] at hr
    by_cases hc : a > h.2
    · have hr' : r = (List.enumFrom (n + 1) t).foldl
          (fun acc iv => if iv.2 > acc.2 then iv else acc) (n, a) := by
        simpa [hc] using hr
      obtain ⟨ih1, ih2, ih3⟩ := ih (n + 1) (n, a) r hr'
      refine ⟨Nat.le_trans (Nat.le_of_lt hc) ih1, ?_, ?_⟩
      · intro x hx
        rcases List.mem_cons.mp hx with rfl | hx
        · exact ih1
        · exact ih2 x hx
      · rcases ih3 with heq | ⟨j, hj, hj1, hj2, hj3⟩
        · right
          refine ⟨0, by simp, ?_, ?_, ?_⟩ <;> rw [heq] <;> simp [hc]
        · right
          exact ⟨j + 1, by simpa using hj, by omega, by simpa using hj2,
            Nat.lt_of_lt_of_le hc (by simpa using ih1.trans (Nat.le_of_eq rfl) |>.trans (Nat.le_refl _) |>.trans_eq rfl |>.trans (Nat.le_refl _))⟩
    · have hr' : r = (List.enumFrom (n + 1) t).foldl
          (fun acc iv => if iv.2 > acc.2 then iv else acc) h := by
        simpa [hc] using hr
      obtain ⟨ih1, ih2, ih3⟩ := ih (n + 1) h r hr'
      refine ⟨ih1, ?_, ?_⟩
      · intro x hx
        rcases List.mem_cons.mp hx with rfl | hx
        · exact Nat.le_trans (Nat.le_of_not_lt hc) ih1
        · exact ih2 x hx
      · rcases ih3 with heq | ⟨j, hj, hj1, hj2, hj3⟩
        · exact Or.inl heq
        · right
          exact ⟨j + 1, by simpa using hj, by omega, by simpa using hj2, hj3⟩

/-- Unfolding `credits_get_highest`, with the fold factored out. -/
theorem credits_get_highest_eq (cs : List Nat) :
    credits_get_highest cs =
      (fun r : Nat × Nat =>
        if r.2 = 0 then some ((0, 0), cs)
        else if r.2 % 4294967296 = 0 then none
        else
          some ((r.1 + 1, 31 - leading_zeros_u32 (r.2 % 4294967296)),
            cs.set r.1
              (cs.getD r.1 0 - (1 <<< (31 - leading_zeros_u32 (r.2 % 4294967296))))))
        (cs.enum.foldl (fun acc iv => if iv.2 > acc.2 then iv else acc) (0, 0)) := rfl

/-- C1 (counterexample): at pool values 2^32 and above the `v as u32`
truncation departs from `m = ⌊log₂ v⌋`: for a single pool of 2^32 + 1 the
code returns grant exponent 0 and deducts 1, while ⌊log₂ (2^32 + 1)⌋ = 32. -/
theorem credits_get_highest_truncation :
    credits_get_highest [4294967297, 0, 0, 0, 0]
        = some ((1, 0), [4294967296, 0, 0, 0, 0]) ∧
      Nat.log2 4294967297 = 32 := by
  have hone : (1 : Nat) ≠ 0 := by norm_num
  have hbig : (4294967297 : Nat) ≠ 0 := by norm_num
  have hlog1 : Nat.log2 1 = 0 := by
    have h := (Nat.log2_lt hone).mpr (show (1 : Nat) < 2 ^ 1 by norm_num)
    omega
  have hlog : Nat.log2 4294967297 = 32 := by
    have h1 := (Nat.le_log2 hbig).mpr (show 2 ^ 32 ≤ 4294967297 by norm_num)
    have h2 := (Nat.log2_lt hbig).mpr (show (4294967297 : Nat) < 2 ^ 33 by norm_num)
    omega
  refine ⟨?_, hlog⟩
  rw [credits_get_highest_eq]
  have hfold : (([4294967297, 0, 0, 0, 0] : List Nat).enum.foldl
      (fun acc iv => if iv.2 > acc.2 then iv else acc) (0, 0)) = (0, 4294967297) := by
    rfl
  rw [hfold]
  norm_num [leading_zeros_u32, hlog1, Nat.shiftLeft_eq]

/-- C1 (amended): for credit pools whose values stay below 2^32 (so the
32-bit truncation is the identity): if all five pools are zero,
`get_highest` returns (0,0) and leaves the pools unchanged; otherwise it
returns `(i+1, ⌊log₂ v⌋)` for a pool `i` holding the largest value `v` and
deducts exactly `2^⌊log₂ v⌋` from that pool (for `v` at and above 2^31 the
exponent is 31, the 5-bit cap). -/
theorem credits_get_highest_spec (cs : List Nat) (hlen : cs.length = 5)
    (hb : ∀ v ∈ cs, v < 4294967296) :
    ((∀ v ∈ cs, v = 0) → credits_get_highest cs = some ((0, 0), cs)) ∧
    (¬ (∀ v ∈ cs, v = 0) →
      ∃ i v, i < 5 ∧ cs.getD i 0 = v ∧ 0 < v ∧ (∀ x ∈ cs, x ≤ v) ∧
        credits_get_highest cs
          = some ((i + 1, Nat.log2 v), cs.set i (v - 2 ^ Nat.log2 v))) := by
  obtain ⟨h1, h2, h3⟩ := credits_fold_spec cs 0 (0, 0)
    (cs.enum.foldl (fun acc iv => if iv.2 > acc.2 then iv else acc) (0, 0)) rfl
  rw [credits_get_highest_eq cs]
  generalize hg : cs.enum.foldl (fun acc iv => if iv.2 > acc.2 then iv else acc)
      ((0, 0) : Nat × Nat) = r at h2 h3 ⊢
  simp only []
  constructor
  · intro hz
    have hr2 : r.2 = 0 := by
      rcases h3 with heq | ⟨j, hj, hj1, hj2, hj3⟩
      · rw [heq]
      · rw [hj2]
        have : cs.getD j 0 ∈ cs := by
          rw [List.getD_eq_getElem?_getD, List.getElem?_eq_getElem hj]
          exact List.getElem_mem hj
        exact hz _ this
    rw [if_pos hr2]
  · intro hnz
    push_neg at hnz
    obtain ⟨x, hx, hx0⟩ := hnz
    have hr2 : 0 < r.2 := Nat.lt_of_lt_of_le (Nat.pos_of_ne_zero hx0) (h2 x hx)
    rcases h3 with heq | ⟨j, hj, hj1, hj2, hj3⟩
    · rw [heq] at hr2
      exact absurd hr2 (by simp)
    · have hmem : cs.getD j 0 ∈ cs := by
        rw [List.getD_eq_getElem?_getD, List.getElem?_eq_getElem hj]
        exact List.getElem_mem hj
      have hlt : r.2 < 4294967296 := by
        rw [hj2]
        exact hb _ hmem
      have hmod : r.2 % 4294967296 = r.2 := Nat.mod_eq_of_lt hlt
      have hlog : Nat.log2 r.2 < 32 :=
        (Nat.log2_lt (Nat.pos_iff_ne_zero.mp hr2)).mpr hlt
      have hlz : 31 - leading_zeros_u32 (r.2 % 4294967296) = Nat.log2 r.2 := by
        rw [hmod]
        unfold leading_zeros_u32
        rw [if_neg (Nat.pos_iff_ne_zero.mp hr2)]
        omega
      refine ⟨j, r.2, by omega, hj2.symm, hr2, h2, ?_⟩
      rw [if_neg (by omega), if_neg (by rw [hmod]; omega), hlz]
      have hpow : (1 <<< Nat.log2 r.2) = 2 ^ Nat.log2 r.2 := by
        rw [Nat.shiftLeft_eq, Nat.one_mul]
      rw [hpow, hj1, hj2]
      simp

/-- C1 witness: the pool state [3,0,0,0,0] satisfies the length and bound
hypotheses, and the theorem yields its two-sided conclusion there. -/
theorem credits_get_highest_spec_witness :
    (([3, 0, 0, 0, 0] : List Nat).length = 5 ∧
      (∀ v ∈ ([3, 0, 0, 0, 0] : List Nat), v < 4294967296)) ∧
    (((∀ v ∈ ([3, 0, 0, 0, 0] : List Nat), v = 0) →
        credits_get_highest [3, 0, 0, 0, 0] = some ((0, 0), [3, 0, 0, 0, 0])) ∧
      (¬ (∀ v ∈ ([3, 0, 0, 0, 0] : List Nat), v = 0) →
        ∃ i v, i < 5 ∧ ([3, 0, 0, 0, 0] : List Nat).getD i 0 = v ∧ 0 < v ∧
          (∀ x ∈ ([3, 0, 0, 0, 0] : List Nat), x ≤ v) ∧
          credits_get_highest [3, 0, 0, 0, 0]
            = some ((i + 1, Nat.log2 v),
                ([3, 0, 0, 0, 0] : List Nat).set i (v - 2 ^ Nat.log2 v)))) :=
  ⟨⟨rfl, by decide⟩, credits_get_highest_spec [3, 0, 0, 0, 0] rfl (by decide)⟩

/-! ## C8 -/

/-- Masking below the mask width is the identity. -/
theorem escape_bits_eq (v b : Nat) (h : v < 2 ^ b) : escape_bits v b = v := by
  unfold escape_bits
  rw [Nat.shiftLeft_eq 1 b, Nat.one_mul, Nat.and_pow_two_sub_one_eq_mod,
    Nat.mod_eq_of_lt h]

/-- Evaluating `escape_bits_shift` on an in-range value is a plain shift. -/
theorem escape_bits_shift_eq (v b s : Nat) (h : v < 2 ^ b) :
    escape_bits_shift v b s = v * 2 ^ s := by
  unfold escape_bits_shift
  rw [Nat.shiftLeft_eq 1 b, Nat.one_mul, Nat.and_pow_two_sub_one_eq_mod,
    Nat.mod_eq_of_lt h, Nat.shiftLeft_eq]

/-- Evaluating `extract_bits_shift` as division and remainder. -/
theorem extract_bits_shift_eq (v b s : Nat) :
    extract_bits_shift v b s = v / 2 ^ s % 2 ^ b := by
  unfold extract_bits_shift
  rw [Nat.shiftLeft_eq 1 b, Nat.one_mul, Nat.and_pow_two_sub_one_eq_mod,
    Nat.shiftRight_eq_div_pow]

/-- OR-ing a value below `2^t` into a multiple of `2^t` is addition. -/
theorem lor_add_of_bound (x a t : Nat) (hx : ∃ k, x = k * 2 ^ t)
    (ha : a < 2 ^ t) : x ||| a = x + a := by
  obtain ⟨k, rfl⟩ := hx
  exact lor_mul_pow k a t ha

/-- Channel discriminants fit in 3 bits. -/
theorem chan_toU64_lt (ch : OmnixtendChannel) : ch.toU64 < 8 := by
  cases ch <;> decide

/-- Decoding a channel discriminant recovers the channel. -/
theorem chan_ofU64_toU64 (ch : OmnixtendChannel) :
    OmnixtendChannel.ofU64 ch.toU64 = some ch := by
  cases ch <;> rfl

/-- The packed ABCD flit header as a sum of disjoint bit fields. -/
theorem chanABCD_toU64_eq (m : ChanABCDTilelinkMessage)
    (hop : m.opcode < 8) (hpa : m.param < 16) (hsz : m.size < 16)
    (hdo : m.domain < 256) (her : m.err < 4) (hsr : m.source < 67108864) :
    m.toU64 = m.chan.toU64 * 1152921504606846976
      + m.opcode * 144115188075855872 + m.param * 4503599627370496
      + m.size * 281474976710656 + m.domain * 1099511627776
      + m.err * 274877906944 + m.source := by
  have hc8 := chan_toU64_lt m.chan
  unfold ChanABCDTilelinkMessage.toU64
  rw [escape_bits_shift_eq _ 3 60 (by simpa using hc8),
    escape_bits_shift_eq _ 3 57 (by simpa using hop),
    escape_bits_shift_eq _ 4 52 (by simpa using hpa),
    escape_bits_shift_eq _ 4 48 (by simpa using hsz),
    escape_bits_shift_eq _ 8 40 (by simpa using hdo),
    escape_bits_shift_eq _ 2 38 (by simpa using her),
    escape_bits_eq _ 26 (by simpa using hsr)]
  dsimp only
  rw [Nat.zero_or]
  rw [lor_add_of_bound (m.chan.toU64 * 2 ^ 60) (m.opcode * 2 ^ 57) 60
    ⟨m.chan.toU64, rfl⟩ (by norm_num; omega)]
  rw [lor_add_of_bound (m.chan.toU64 * 2 ^ 60 + m.opcode * 2 ^ 57)
    (m.param * 2 ^ 52) 57 ⟨m.chan.toU64 * 2 ^ 3 + m.opcode, by ring⟩
    (by norm_num; omega)]
  rw [lor_add_of_bound
    (m.chan.toU64 * 2 ^ 60 + m.opcode * 2 ^ 57 + m.param * 2 ^ 52)
    (m.size * 2 ^ 48) 52
    ⟨m.chan.toU64 * 2 ^ 8 + m.opcode * 2 ^ 5 + m.param, by ring⟩
    (by norm_num; omega)]
  rw [lor_add_of_bound
    (m.chan.toU64 * 2 ^ 60 + m.opcode * 2 ^ 57 + m.param * 2 ^ 52
      + m.size * 2 ^ 48)
    (m.domain * 2 ^ 40) 48
    ⟨m.chan.toU64 * 2 ^ 12 + m.opcode * 2 ^ 9 + m.param * 2 ^ 4 + m.size, by ring⟩
    (by norm_num; omega)]
  rw [lor_add_of_bound
    (m.chan.toU64 * 2 ^ 60 + m.opcode * 2 ^ 57 + m.param * 2 ^ 52
      + m.size * 2 ^ 48 + m.domain * 2 ^ 40)
    (m.err * 2 ^ 38) 40
    ⟨m.chan.toU64 * 2 ^ 20 + m.opcode * 2 ^ 17 + m.param * 2 ^ 12
      + m.size * 2 ^ 8 + m.domain, by ring⟩
    (by norm_num; omega)]
  rw [lor_add_of_bound
    (m.chan.toU64 * 2 ^ 60 + m.opcode * 2 ^ 57 + m.param * 2 ^ 52
      + m.size * 2 ^ 48 + m.domain * 2 ^ 40 + m.err * 2 ^ 38)
    m.source 38
    ⟨m.chan.toU64 * 2 ^ 22 + m.opcode * 2 ^ 19 + m.param * 2 ^ 14
      + m.size * 2 ^ 10 + m.domain * 2 ^ 2 + m.err, by ring⟩
    (by norm_num; omega)]
  norm_num

/-- Pack-then-unpack on the ABCD flit header. -/
theorem chanABCD_roundtrip (m : ChanABCDTilelinkMessage)
    (hop : m.opcode < 8) (hpa : m.param < 16) (hsz : m.size < 16)
    (hdo : m.domain < 256) (her : m.err < 4) (hsr : m.source < 67108864) :
    ChanABCDTilelinkMessage.ofU64 m.toU64 = some m := by
  obtain ⟨ch, o, p, z, d, e, sr⟩ := m
  simp only at hop hpa hsz hdo her hsr
  rw [chanABCD_toU64_eq _ hop hpa hsz hdo her hsr]
  simp only
  have hc8 := chan_toU64_lt ch
  unfold ChanABCDTilelinkMessage.ofU64
  have h60 : extract_bits_shift (ch.toU64 * 1152921504606846976
      + o * 144115188075855872 + p * 4503599627370496 + z * 281474976710656
      + d * 1099511627776 + e * 274877906944 + sr) 3 60 = ch.toU64 := by
    rw [extract_bits_shift_eq]
    norm_num
    omega
  rw [h60, chan_ofU64_toU64]
  simp only [Option.some.injEq, ChanABCDTilelinkMessage.mk.injEq]
  refine ⟨trivial, ?_, ?_, ?_, ?_, ?_, ?_⟩ <;>
    (rw [extract_bits_shift_eq]; norm_num; omega)

/-- The packed channel-E flit header as a sum of disjoint bit fields. -/
theorem chanE_toU64_eq (e : ChanETilelinkMessage) (hsk : e.sink < 67108864) :
    e.toU64 = e.chan.toU64 * 1152921504606846976 + e.sink := by
  have hc8 := chan_toU64_lt e.chan
  unfold ChanETilelinkMessage.toU64
  rw [escape_bits_shift_eq _ 3 60 (by simpa using hc8),
    escape_bits_eq _ 26 (by simpa using hsk)]
  dsimp only
  rw [Nat.zero_or]
  rw [lor_add_of_bound (e.chan.toU64 * 2 ^ 60) e.sink 60 ⟨e.chan.toU64, rfl⟩
    (by norm_num; omega)]
  norm_num

/-- Pack-then-unpack on the channel-E flit header. -/
theorem chanE_roundtrip (e : ChanETilelinkMessage) (hsk : e.sink < 67108864) :
    ChanETilelinkMessage.ofU64 e.toU64 = some e := by
  obtain ⟨ch, sk⟩ := e
  simp only at hsk
  rw [chanE_toU64_eq _ hsk]
  simp only
  have hc8 := chan_toU64_lt ch
  unfold ChanETilelinkMessage.ofU64
  have h60 : extract_bits_shift (ch.toU64 * 1152921504606846976 + sk) 3 60
      = ch.toU64 := by
    rw [extract_bits_shift_eq]
    norm_num
    omega
  rw [h60, chan_ofU64_toU64]
  simp only [Option.some.injEq, ChanETilelinkMessage.mk.injEq]
  refine ⟨trivial, ?_⟩
  rw [extract_bits_shift_eq]
  norm_num
  omega

/-- C8: for every ABCD flit-header message whose fields are within their
wire widths (opcode < 8, param < 16, size < 16, domain < 256, err < 4,
source < 2^26 — the channel is one of the six enum values, so at most 5),
encoding to the 64-bit header and decoding back yields the same message;
likewise for every channel-E message with sink < 2^26. -/
theorem tilelink_header_roundtrip (m : ChanABCDTilelinkMessage)
    (e : ChanETilelinkMessage)
    (hop : m.opcode < 8) (hpa : m.param < 16) (hsz : m.size < 16)
    (hdo : m.domain < 256) (her : m.err < 4) (hsr : m.source < 67108864)
    (hsk : e.sink < 67108864) :
    ChanABCDTilelinkMessage.ofU64 m.toU64 = some m ∧
      ChanETilelinkMessage.ofU64 e.toU64 = some e :=
  ⟨chanABCD_roundtrip m hop hpa hsz hdo her hsr, chanE_roundtrip e hsk⟩

/-- C8 witness: a concrete GrantData header and a concrete GrantAck header
round-trip. -/
theorem tilelink_header_roundtrip_witness :
    ((5 : Nat) < 8 ∧ (3 : Nat) < 16 ∧ (4 : Nat) < 16 ∧ (17 : Nat) < 256 ∧
      (2 : Nat) < 4 ∧ (12345 : Nat) < 67108864 ∧ (54321 : Nat) < 67108864) ∧
    (ChanABCDTilelinkMessage.ofU64
        (ChanABCDTilelinkMessage.toU64
          { chan := .D, opcode := 5, param := 3, size := 4, domain := 17,
            err := 2, source := 12345 })
      = some { chan := .D, opcode := 5, param := 3, size := 4, domain := 17,
               err := 2, source := 12345 } ∧
     ChanETilelinkMessage.ofU64
        (ChanETilelinkMessage.toU64 { chan := .E, sink := 54321 })
      = some { chan := .E, sink := 54321 }) :=
  ⟨by norm_num,
    tilelink_header_roundtrip
      { chan := .D, opcode := 5, param := 3, size := 4, domain := 17,
        err := 2, source := 12345 }
      { chan := .E, sink := 54321 }
      (by norm_num) (by norm_num) (by norm_num) (by norm_num) (by norm_num)
      (by norm_num) (by norm_num)⟩

/-! ## C2 -/

/-- C2: for a frame that passes the MAC and EtherType filter and carries a
sequence number different from `next_rx_seq`: when `next_rx.cmp(S)` is
false and the frame is not AckOnly, the NAK counter is bumped,
`last_ack_status` cleared, `send_outstanding` raised and the call returns
`OutOfOrder { got = S, expected = next_rx }`; when `next_rx.cmp(S)` is
false and the frame is AckOnly, or when `next_rx.cmp(S)` is true, the frame
is ignored: `Ok` with empty payload and a completely unchanged state. -/
theorem process_packets_out_of_order (s : Connection) (f : EthFrame)
    (hmac : f.dst_mac = s.my_mac) (heth : f.ethertype = 43690)
    (hseq : f.seq ≠ s.next_rx_seq) :
    (seq_cmp s.next_rx_seq f.seq = false →
      f.message_type ≠ message_type_ack_only →
      process_packets s f
        = some (.error (.OutOfOrder f.seq s.next_rx_seq),
            { s with naks := s.naks + 1, last_ack_status := false,
                     send_outstanding := true })) ∧
    (seq_cmp s.next_rx_seq f.seq = false →
      f.message_type = message_type_ack_only →
      process_packets s f = some (.ok [], s)) ∧
    (seq_cmp s.next_rx_seq f.seq = true →
      process_packets s f = some (.ok [], s)) := by
  refine ⟨?_, ?_, ?_⟩
  · intro hcmp hao
    simp only [message_type_ack_only] at hao
    simp [process_packets, process_replicated, message_type_ack_only,
      hmac, heth, hseq, hcmp, hao]
  · intro hcmp hao
    simp only [message_type_ack_only] at hao
    simp [process_packets, process_replicated, message_type_ack_only,
      hmac, heth, hseq, hcmp, hao]
  · intro hcmp
    simp [process_packets, process_out_of_sequence, message_type_ack_only,
      hmac, heth, hseq, hcmp]

/-- C2 witness: a non-AckOnly frame with sequence 1 against a fresh
connection expecting 0 is NAKed with `OutOfOrder`. -/
theorem process_packets_out_of_order_witness :
    (c2frame.dst_mac = c2conn.my_mac ∧ c2frame.ethertype = 43690 ∧
      c2frame.seq ≠ c2conn.next_rx_seq) ∧
    ((seq_cmp c2conn.next_rx_seq c2frame.seq = false →
        c2frame.message_type ≠ message_type_ack_only →
        process_packets c2conn c2frame
          = some (.error (.OutOfOrder c2frame.seq c2conn.next_rx_seq),
              { c2conn with naks := c2conn.naks + 1, last_ack_status := false,
                            send_outstanding := true })) ∧
      (seq_cmp c2conn.next_rx_seq c2frame.seq = false →
        c2frame.message_type = message_type_ack_only →
        process_packets c2conn c2frame = some (.ok [], c2conn)) ∧
      (seq_cmp c2conn.next_rx_seq c2frame.seq = true →
        process_packets c2conn c2frame = some (.ok [], c2conn))) :=
  ⟨⟨rfl, rfl, by decide⟩,
    process_packets_out_of_order c2conn c2frame rfl rfl (by decide)⟩

/-! ## C9 -/

/-- The walker makes no progress on `payload_chan_b_op0`: one step maps the
state to itself. -/
theorem process_messages_loop_stall (n : Nat) :
    process_messages_loop n payload_chan_b_op0 0 [] [] [] = .spin := by
  induction n with
  | zero => rfl
  | succ k ih =>
    calc process_messages_loop (k + 1) payload_chan_b_op0 0 [] [] []
        = process_messages_loop k payload_chan_b_op0 0 [] [] [] := rfl
      _ = .spin := ih

/-- C9 (code bug): the claim says `process_messages` terminates on every
payload, the cursor advancing even for channel-B flits with opcodes outside
{6, 7}.  It does not: on a payload whose first flit header is channel B
with opcode 0, `handle_chan_b` leaves the cursor untouched, so the loop
re-reads the same header forever — the fuelled model exhausts any amount of
fuel. -/
theorem process_messages_chan_b_no_advance (fuel : Nat) :
    process_messages fuel payload_chan_b_op0 = .spin := by
  have hlen : ¬ (payload_chan_b_op0.length < 8) := by decide
  unfold process_messages
  rw [if_neg hlen]
  exact process_messages_loop_stall fuel

/-! ## C10 -/

/-- If the payload walk finishes (`done`), every header it visited was
survivable. -/
theorem process_messages_loop_good (fuel : Nat) :
    ∀ payload pos credits probes responses,
      returns_value
          (process_messages_loop fuel payload pos credits probes responses)
        = true →
      ∀ w ∈ visited_headers fuel payload pos, good_header w = true := by
  induction fuel with
  | zero =>
    intro payload pos _ _ _ _ w hw
    simp [visited_headers] at hw
  | succ k ih =>
    intro payload pos credits probes responses hdone w hw
    unfold process_messages_loop at hdone
    unfold visited_headers at hw
    by_cases hpos : pos < payload.length - 8
    · rw [if_pos hpos] at hdone
      rw [if_pos hpos] at hw
      dsimp only at hw
      rcases hdec : ChanABCDTilelinkMessage.ofU64 (u64_from_be_at payload pos)
        with _ | msg
      · rw [hdec] at hdone
        simp [returns_value] at hdone
      · rw [hdec] at hdone hw
        dsimp only at hdone hw
        rcases hchan : msg.chan with _ | _ | _ | _ | _ | _
        · -- INVALID
          rw [hchan] at hdone hw
          rcases List.mem_cons.mp hw with rfl | hw'
          · simp [good_header, hdec, hchan]
          · exact ih payload (pos + 8) credits probes responses hdone w hw'
        · -- A
          rw [hchan] at hdone
          simp [returns_value] at hdone
        · -- B
          rw [hchan] at hdone hw
          rcases hb : handle_chan_b msg payload pos with _ | ⟨pi, cc, pos'⟩
          · rw [hb] at hdone
            simp [returns_value] at hdone
          · rw [hb] at hdone hw
            rcases List.mem_cons.mp hw with rfl | hw'
            · simp [good_header, hdec, hchan]
            · exact ih payload pos' _ _ _ hdone w hw'
        · -- C
          rw [hchan] at hdone
          simp [returns_value] at hdone
        · -- D
          rw [hchan] at hdone hw
          rcases hd : handle_chan_d msg payload pos with _ | ⟨resp, cc, pos'⟩
          · rw [hd] at hdone
            simp [returns_value] at hdone
          · rw [hd] at hdone hw
            rcases List.mem_cons.mp hw with rfl | hw'
            · have hop : msg.opcode = 0 ∨ msg.opcode = 1 ∨ msg.opcode = 4 ∨
                  msg.opcode = 5 ∨ msg.opcode = 6 := by
                by_contra hno
                push_neg at hno
                obtain ⟨h0, h1, h4, h5, h6⟩ := hno
                unfold handle_chan_d at hd
                simp [h0, h1, h4, h5, h6] at hd
              rcases hop with h | h | h | h | h <;>
                simp [good_header, hdec, hchan, h]
            · exact ih payload pos' _ _ _ hdone w hw'
        · -- E
          rw [hchan] at hdone
          simp [returns_value] at hdone
    · rw [if_neg hpos] at hw
      simp at hw

/-- C10: `process_messages` delivers a value (Ok or Err) only when every
flit header it visited decodes to channel B, channel INVALID, or channel D
with opcode in {0, 1, 4, 5, 6}; and on a frame-filter-clean payload whose
first flit header carries channel A it panics instead of returning an
error. -/
theorem process_messages_returns_only_good_headers (payload : List Nat)
    (fuel : Nat)
    (h : returns_value (process_messages fuel payload) = true) :
    (∀ w ∈ visited_headers fuel payload 0, good_header w = true) ∧
    process_messages 2 payload_chan_a = .panicked := by
  constructor
  · unfold process_messages at h
    by_cases hlen : payload.length < 8
    · intro w hw
      exfalso
      rcases fuel with _ | k
      · simp [visited_headers] at hw
      · have hz : ¬ (0 < payload.length - 8) := by omega
        simp [visited_headers, hz] at hw
    · rw [if_neg hlen] at h
      exact process_messages_loop_good fuel payload 0 [] [] [] h
  · rfl

/-- C10 witness: an 8-byte payload (no flits) is processed to `Ok`, and the
channel-A payload panics. -/
theorem process_messages_returns_only_good_headers_witness :
    returns_value (process_messages 1 [0, 0, 0, 0, 0, 0, 0, 0]) = true ∧
    ((∀ w ∈ visited_headers 1 [0, 0, 0, 0, 0, 0, 0, 0] 0,
        good_header w = true) ∧
      process_messages 2 payload_chan_a = .panicked) :=
  ⟨rfl, process_messages_returns_only_good_headers [0, 0, 0, 0, 0, 0, 0, 0] 1 rfl⟩

/-! ## C5 -/

/-- One `take_while` step when the message fits. -/
theorem put_messages_loop_cons_true (p : List Nat) (rest : List (List Nat))
    (len cntr mask : Nat) (h : cntr < 64 ∧ len + p.length < 9000) :
    put_messages_loop (p :: rest) len cntr mask
      = (p :: (put_messages_loop rest (len + p.length) (cntr + p.length / 8)
            (mask ||| (1 <<< cntr))).1,
         (put_messages_loop rest (len + p.length) (cntr + p.length / 8)
            (mask ||| (1 <<< cntr))).2) := by
  simp [put_messages_loop, space_in_packet, h.1, h.2]

/-- One `take_while` step when the message does not fit. -/
theorem put_messages_loop_cons_false (p : List Nat) (rest : List (List Nat))
    (len cntr mask : Nat) (h : ¬ (cntr < 64 ∧ len + p.length < 9000)) :
    put_messages_loop (p :: rest) len cntr mask = ([], len, cntr, mask) := by
  simp only [put_messages_loop, space_in_packet]
  rw [if_neg h]
  simp

/-- The `take_while(space_in_packet …)` pass characterised: it takes the
greedy prefix — every taken index satisfied the counter-below-64 and
length-below-9000 guard, and either the list was exhausted or the guard
fails at the first untaken index — growing the length by the taken bytes
and building the mask as `mask_spec` describes. -/
theorem put_messages_loop_spec (ops : List (List Nat)) :
    ∀ len cntr mask : Nat,
      ∃ k, k ≤ ops.length ∧
        (put_messages_loop ops len cntr mask).1 = ops.take k ∧
        (put_messages_loop ops len cntr mask).2.1
          = len + ((ops.take k).map List.length).sum ∧
        (put_messages_loop ops len cntr mask).2.2.2
          = mask_spec (ops.take k) cntr mask ∧
        (∀ i, i < k →
          cntr + ((ops.take i).map (fun p => p.length / 8)).sum < 64 ∧
          len + ((ops.take i).map List.length).sum + (ops.getD i []).length
            < 9000) ∧
        (k = ops.length ∨
          ¬ (cntr + ((ops.take k).map (fun p => p.length / 8)).sum < 64 ∧
            len + ((ops.take k).map List.length).sum + (ops.getD k []).length
              < 9000)) := by
  induction ops with
  | nil =>
    intro len cntr mask
    refine ⟨0, ?_⟩
    simp [put_messages_loop, mask_spec]
  | cons p rest ih =>
    intro len cntr mask
    by_cases hg : cntr < 64 ∧ len + p.length < 9000
    · obtain ⟨k, hk, h1, h2, h3, h4, h5⟩ :=
        ih (len + p.length) (cntr + p.length / 8) (mask ||| (1 <<< cntr))
      rw [put_messages_loop_cons_true p rest len cntr mask hg]
      refine ⟨k + 1, by simpa using hk, ?_, ?_, ?_, ?_, ?_⟩
      · simpa using h1
      · simp only [List.take_succ_cons, List.map_cons, List.sum_cons]
        simp only [h2]
        omega
      · simp only [List.take_succ_cons, mask_spec]
        exact h3
      · intro i hi
        rcases i with _ | j
        · simpa using hg
        · have := h4 j (by omega)
          simp only [List.take_succ_cons, List.map_cons, List.sum_cons,
            List.getD_cons_succ]
          omega
      · rcases h5 with h5 | h5
        · left
          simp [h5]
        · right
          simp only [List.take_succ_cons, List.map_cons, List.sum_cons,
            List.getD_cons_succ]
          omega
    · rw [put_messages_loop_cons_false p rest len cntr mask hg]
      refine ⟨0, Nat.zero_le _, by simp, by simp, by simp [mask_spec], ?_, ?_⟩
      · intro i hi
        omega
      · right
        simpa using hg

/-- C5: `put_messages` removes exactly a prefix of the pending list and
appends it, in order, to the frame under assembly; messages are taken while
the running flit counter stays below 64 and the running packet length
(header + trailer + messages so far) plus the next message stays below the
9000-byte MTU; the 64-bit trailer mask carries one OR-ed bit per taken
message at its cumulative flit offset; untaken messages remain, in order. -/
theorem put_messages_greedy (payload : List Nat) (ops : List (List Nat)) :
    ∃ k, k ≤ ops.length ∧
      (put_messages payload (some ops)).2.1 = some (ops.drop k) ∧
      (∃ pad, (put_messages payload (some ops)).1
        = payload ++ (ops.take k).flatten ++ List.replicate pad 0
          ++ u64_to_be_bytes (mask_spec (ops.take k) 0 0)) ∧
      (∀ i, i < k →
        ((ops.take i).map (fun p => p.length / 8)).sum < 64 ∧
        payload.length + 8 + ((ops.take i).map List.length).sum
          + (ops.getD i []).length < 9000) ∧
      (k = ops.length ∨
        ¬ (((ops.take k).map (fun p => p.length / 8)).sum < 64 ∧
          payload.length + 8 + ((ops.take k).map List.length).sum
            + (ops.getD k []).length < 9000)) := by
  obtain ⟨k, hk, h1, h2, h3, h4, h5⟩ :=
    put_messages_loop_spec ops (payload.length + 8) 0 0
  refine ⟨k, hk, ?_, ?_, ?_, ?_⟩
  · simp only [put_messages, h1]
    rw [List.length_take, Nat.min_eq_left hk]
  · simp only [put_messages, h1, h2, h3]
    by_cases hpad : payload.length + 8 + ((ops.take k).map List.length).sum < 70
    · refine ⟨70 - (payload.length + 8 + ((ops.take k).map List.length).sum), ?_⟩
      rw [if_pos hpad]
    · refine ⟨0, ?_⟩
      rw [if_neg hpad]
      simp
  · intro i hi
    have := h4 i hi
    omega
  · rcases h5 with h5 | h5
    · exact Or.inl h5
    · right
      omega

/-! ## C6 -/

/-- The trailer is always 8 bytes. -/
theorem u64_to_be_bytes_length (n : Nat) : (u64_to_be_bytes n).length = 8 := rfl

/-- The guard keeps the running packet length below 9000. -/
theorem put_messages_loop_len_lt (ops : List (List Nat)) :
    ∀ len cntr mask : Nat, len < 9000 →
      (put_messages_loop ops len cntr mask).2.1 < 9000 := by
  induction ops with
  | nil =>
    intro len cntr mask h
    simpa [put_messages_loop] using h
  | cons p rest ih =>
    intro len cntr mask h
    by_cases hg : cntr < 64 ∧ len + p.length < 9000
    · rw [put_messages_loop_cons_true p rest len cntr mask hg]
      exact ih _ _ _ hg.2
    · rw [put_messages_loop_cons_false p rest len cntr mask hg]
      simpa using h

/-- Whatever the pending list, the assembled buffer is the original bytes,
then whole appended messages, then zero padding, then the 8-byte trailer. -/
theorem put_messages_shape (payload : List Nat)
    (operations : Option (List (List Nat))) :
    ∃ msgs pad mk, (put_messages payload operations).1
      = payload ++ msgs ++ List.replicate pad 0 ++ u64_to_be_bytes mk := by
  cases operations with
  | none =>
    simp only [put_messages]
    by_cases hpad : payload.length + 8 < 70
    · refine ⟨[], 70 - (payload.length + 8), 0, ?_⟩
      rw [if_pos hpad]
      simp
    · refine ⟨[], 0, 0, ?_⟩
      rw [if_neg hpad]
      simp
  | some ops =>
    obtain ⟨k, hk, h1, h2, h3, h4, h5⟩ :=
      put_messages_loop_spec ops (payload.length + 8) 0 0
    simp only [put_messages, h1, h2, h3]
    by_cases hpad : payload.length + 8 + ((ops.take k).map List.length).sum < 70
    · refine ⟨(ops.take k).flatten,
        70 - (payload.length + 8 + ((ops.take k).map List.length).sum),
        mask_spec (ops.take k) 0 0, ?_⟩
      rw [if_pos hpad]
    · refine ⟨(ops.take k).flatten, 0, mask_spec (ops.take k) 0 0, ?_⟩
      rw [if_neg hpad]
      simp

/-- When the initial buffer leaves room below the MTU, the assembled buffer
lands in the mandated 70 ≤ length < 9000 window. -/
theorem put_messages_length (payload : List Nat)
    (operations : Option (List (List Nat))) (h : payload.length + 8 < 9000) :
    70 ≤ (put_messages payload operations).1.length ∧
      (put_messages payload operations).1.length < 9000 := by
  cases operations with
  | none =>
    simp only [put_messages]
    by_cases hpad : payload.length + 8 < 70
    · rw [if_pos hpad]
      simp only [List.length_append, List.length_replicate, u64_to_be_bytes_length]
      omega
    · rw [if_neg hpad]
      simp only [List.length_append, u64_to_be_bytes_length]
      omega
  | some ops =>
    obtain ⟨k, hk, h1, h2, h3, h4, h5⟩ :=
      put_messages_loop_spec ops (payload.length + 8) 0 0
    have hlt := put_messages_loop_len_lt ops (payload.length + 8) 0 0 h
    rw [h2] at hlt
    have hflat : (ops.take k).flatten.length = ((ops.take k).map List.length).sum :=
      List.length_flatten _
    simp only [put_messages, h1, h2, h3]
    by_cases hpad : payload.length + 8 + ((ops.take k).map List.length).sum < 70
    · rw [if_pos hpad]
      simp only [List.length_append, List.length_replicate,
        u64_to_be_bytes_length, hflat]
      omega
    · rw [if_neg hpad]
      simp only [List.length_append, u64_to_be_bytes_length, hflat]
      omega

/-- Prepending a 14-byte and an 8-byte header to a messages-padding-trailer
body gives a 22-byte-header frame of the claimed shape. -/
theorem append_header_shape (a b c msgs : List Nat) (pad mk : Nat)
    (ha : a.length = 14) (hb : b.length = 8)
    (hc : c = msgs ++ (List.replicate pad 0 ++ u64_to_be_bytes mk)) :
    ∃ hdr msgs' pad' mk',
      a ++ b ++ c = hdr ++ msgs' ++ List.replicate pad' 0 ++ u64_to_be_bytes mk'
        ∧ hdr.length = 22 := by
  refine ⟨a ++ b, msgs, pad, mk, ?_, by simp [ha, hb]⟩
  subst hc
  simp [List.append_assoc]

/-- C6: every frame a successful `send_packet` produces — Ethernet header,
OmniXtend header, payload flits, zero padding and the 8-byte
start-of-message trailer — is at least 70 and at most 9000 bytes on the
wire, and consists of the 22 header bytes, the appended messages, zero
padding, and the trailer. -/
theorem send_packet_frame_bounds (s : Connection)
    (operations : Option (List (List Nat))) (outstanding : Bool)
    (buf : List Nat) (remaining : Option (List (List Nat))) (s' : Connection)
    (h : send_packet s operations outstanding
      = some (.ok (buf, remaining), s')) :
    70 ≤ buf.length ∧ buf.length ≤ 9000 ∧
      ∃ hdr msgs pad mk,
        buf = hdr ++ msgs ++ List.replicate pad 0 ++ u64_to_be_bytes mk
          ∧ hdr.length = 22 := by
  unfold send_packet at h
  split at h
  · simp at h
  · split at h
    · simp at h
    · dsimp only at h
      split at h
      · simp at h
      · simp only [Option.some.injEq, Prod.mk.injEq, Except.ok.injEq] at h
        obtain ⟨⟨hbuf, hrem⟩, hst⟩ := h
        subst hbuf
        obtain ⟨msgs, pad, mk, hshape⟩ :=
          put_messages_shape (List.replicate 22 0) operations
        have hlen := put_messages_length (List.replicate 22 0) operations (by simp)
        have hdrop : (put_messages (List.replicate 22 0) operations).1.drop 22
            = msgs ++ (List.replicate pad 0 ++ u64_to_be_bytes mk) := by
          rw [hshape, List.append_assoc, List.append_assoc]
          rw [List.drop_left' (by simp)]
        refine ⟨?_, ?_, ?_⟩
        · simp only [List.length_append, List.length_drop,
            create_eth_header_bytes, mac_bytes, omnixtend_header_bytes,
            u64_to_be_bytes_length, List.length_cons, List.length_nil]
          omega
        · simp only [List.length_append, List.length_drop,
            create_eth_header_bytes, mac_bytes, omnixtend_header_bytes,
            u64_to_be_bytes_length, List.length_cons, List.length_nil]
          omega
        · exact append_header_shape _ _ _ msgs pad mk
            (by simp [create_eth_header_bytes, mac_bytes]) rfl hdrop

/-- C6 witness: one send on an active connection with an empty pending list
produces a frame that the theorem bounds. -/
theorem send_packet_frame_bounds_witness :
    send_packet c6conn (some []) false = some (.ok (c6buf, some []), c6state) ∧
    (70 ≤ c6buf.length ∧ c6buf.length ≤ 9000 ∧
      ∃ hdr msgs pad mk,
        c6buf = hdr ++ msgs ++ List.replicate pad 0 ++ u64_to_be_bytes mk
          ∧ hdr.length = 22) :=
  ⟨rfl, send_packet_frame_bounds c6conn (some []) false c6buf (some []) c6state rfl⟩
